import Mathlib

/-!
# Verification of the mkube-console cluster aggregation core

Shallow embedding of `internal/cluster/aggregator.go` and the node client
(`client.go`): a `NodeAPI` value records, for one remote node, the response
each outbound HTTP call would produce (`none` encodes a transport error or a
non-success status); a world `String → NodeAPI` maps node names to their
remote behaviour.  `NodeClient` carries the mutable health fields
(`healthy`, `lastPing`); every aggregator operation threads the client list
through explicitly, mirroring the Go methods' reads and writes of that
shared state.  Go map iteration order is modelled by the order of the
`clients` list (the "registry iteration order" of the design notes).
-/

/-- A pod, as far as the aggregator inspects it: identity, the optional
`Spec.NodeName` routing target, the status phase, and the annotation map
(modelled as an association list; `setAnn` is Go map assignment). -/
structure Pod where
  ns : String
  name : String
  nodeName : String
  phase : String
  anns : List (String × String)
deriving DecidableEq, Repr

/-- A node object fetched verbatim from a remote node (opaque payload). -/
structure KNode where
  name : String
deriving DecidableEq, Repr

/-- Go map assignment `m[k] = v` on the association-list model. -/
def setAnn (a : List (String × String)) (k v : String) : List (String × String) :=
  (k, v) :: a.filter (fun p => p.1 ≠ k)

/-- Go map lookup `m[k]` on the association-list model. -/
def getAnn (a : List (String × String)) (k : String) : Option String :=
  (a.find? (fun p => p.1 == k)).map (fun p => p.2)

/-- `pod.Annotations["mkube.io/node"] = c.Name` (aggregator.go:74-80, 133-136). -/
def withNodeAnn (p : Pod) (node : String) : Pod :=
  { p with anns := setAnn p.anns "mkube.io/node" node }

/-- Outcome of the HTTP round trip behind `Ping` (client.go:37-56):
request-construction error, transport error, or a status code. -/
inductive PingOutcome where
  | reqError
  | transportError
  | status (code : Nat)
deriving DecidableEq, Repr

/-- The error taxonomy of the aggregation layer (§7 of the design). -/
inductive AggError where
  | comm
  | notFound (ns name : String)
  | nodeNotFound (node : String)
  | noHealthyNodes
deriving DecidableEq, Repr

/-- Remote behaviour of one node: the response each outbound call would get.
`none` encodes a failed call (transport error or non-success status). -/
structure NodeAPI where
  listPods : Option (List Pod)
  getPod : String → String → Option Pod
  getNode : Option KNode
  createPod : Pod → Option Pod
  deletePod : String → String → Option Unit
  getPodLog : String → String → Option String
  ping : PingOutcome

/-- One node client (client.go:16-22): identity plus the cached health
fields, the only mutable state of the core. -/
structure NodeClient where
  name : String
  address : String
  healthy : Bool
  lastPing : Nat
deriving DecidableEq, Repr

/-- `NewNodeClient` (client.go:25-34): healthy defaults to true, lastPing to
the zero time. -/
def NewNodeClient (name address : String) : NodeClient :=
  { name := name, address := address, healthy := true, lastPing := 0 }

/-- `NodeClient.Ping` (client.go:37-56): on a 200 response set `healthy` and
stamp `lastPing` with the current time; on any failure clear `healthy`,
leave `lastPing` alone, and hand the error back. -/
def NodeClient.ping (c : NodeClient) (o : PingOutcome) (now : Nat) :
    Option AggError × NodeClient :=
  match o with
  | .reqError => (some .comm, { c with healthy := false })
  | .transportError => (some .comm, { c with healthy := false })
  | .status code =>
    if code = 200 then (none, { c with healthy := true, lastPing := now })
    else (some .comm, { c with healthy := false })

/-- `NodeClient.CreatePod` (client.go:83-89) against a world. -/
def NodeClient.createPod (c : NodeClient) (api : String → NodeAPI) (pod : Pod) :
    Except AggError Pod :=
  match (api c.name).createPod pod with
  | some created => .ok created
  | none => .error .comm

/-- `NodeClient.DeletePod` (client.go:92-108) against a world. -/
def NodeClient.deletePod (c : NodeClient) (api : String → NodeAPI) (ns name : String) :
    Option AggError :=
  match (api c.name).deletePod ns name with
  | some _ => none
  | none => some .comm

/-- `NodeClient.GetPodLog` (client.go:111-127) against a world; the byte
stream is modelled as the log text. -/
def NodeClient.getPodLog (c : NodeClient) (api : String → NodeAPI) (ns name : String) :
    Except AggError String :=
  match (api c.name).getPodLog ns name with
  | some s => .ok s
  | none => .error .comm

/-- `NodeClient.GetNode` (client.go:130-136) against a world. -/
def NodeClient.getNode (c : NodeClient) (api : String → NodeAPI) :
    Except AggError KNode :=
  match (api c.name).getNode with
  | some n => .ok n
  | none => .error .comm

/-- The aggregator's registry snapshot: the node map's entries in iteration
order (aggregator.go:16-28). -/
structure Aggregator where
  clients : List NodeClient
deriving DecidableEq, Repr

/-- Per-node stats row (aggregator.go:40-45). -/
structure NodeSummary where
  name : String
  healthy : Bool
  podCount : Nat
  lastPing : Nat
deriving DecidableEq, Repr

/-- Aggregated cluster stats (aggregator.go:31-37). -/
structure ClusterSummary where
  nodeCount : Nat
  healthyNodes : Nat
  podCount : Nat
  runningPods : Nat
  nodes : List NodeSummary
deriving DecidableEq, Repr

/-- The fan-out body of `ListAllPods` (aggregator.go:65-86): each node's
`ListPods` failure contributes nothing; each pod of a successful response is
annotated with its origin node.  The sequential fold realises one
interleaving of the parallel fan-out; the client list is threaded through
untouched, as the Go loop never writes client state. -/
def listPodsLoop (api : String → NodeAPI) : List NodeClient → List Pod × List NodeClient
  | [] => ([], [])
  | c :: rest =>
    let pods :=
      match (api c.name).listPods with
      | none => []
      | some list => list.map (fun p => withNodeAnn p c.name)
    let r := listPodsLoop api rest
    (pods ++ r.1, c :: r.2)

/-- `Aggregator.ListAllPods` (aggregator.go:48-88): fan out, merge, always
return a nil error. -/
def Aggregator.listAllPods (a : Aggregator) (api : String → NodeAPI) :
    (List Pod × Option AggError) × Aggregator :=
  let r := listPodsLoop api a.clients
  ((r.1, none), { clients := r.2 })

/-- The fan-out body of `ListAllNodes` (aggregator.go:102-117). -/
def listNodesLoop (api : String → NodeAPI) : List NodeClient → List KNode × List NodeClient
  | [] => ([], [])
  | c :: rest =>
    let nodes :=
      match (api c.name).getNode with
      | none => []
      | some n => [n]
    let r := listNodesLoop api rest
    (nodes ++ r.1, c :: r.2)

/-- `Aggregator.ListAllNodes` (aggregator.go:91-119): fan out, merge, always
return a nil error. -/
def Aggregator.listAllNodes (a : Aggregator) (api : String → NodeAPI) :
    (List KNode × Option AggError) × Aggregator :=
  let r := listNodesLoop api a.clients
  ((r.1, none), { clients := r.2 })

/-- The sequential scan of `GetPod` (aggregator.go:130-139): stop at the
first node that has the pod, annotate it, report the owner's name. -/
def getPodLoop (api : String → NodeAPI) (ns name : String) :
    List NodeClient → Option (Pod × String) × List NodeClient
  | [] => (none, [])
  | c :: rest =>
    match (api c.name).getPod ns name with
    | some pod => (some (withNodeAnn pod c.name, c.name), c :: rest)
    | none =>
      let r := getPodLoop api ns name rest
      (r.1, c :: r.2)

/-- `Aggregator.GetPod` (aggregator.go:122-141). -/
def Aggregator.getPod (a : Aggregator) (api : String → NodeAPI) (ns name : String) :
    Except AggError (Pod × String) × Aggregator :=
  let r := getPodLoop api ns name a.clients
  match r.1 with
  | some pr => (.ok pr, { clients := r.2 })
  | none => (.error (.notFound ns name), { clients := r.2 })

/-- Go's `int(^uint(0) >> 1)` on a 64-bit platform (aggregator.go:162). -/
def intMax : Nat := 2 ^ 63 - 1

/-- The least-pods selection loop of `CreatePod` (aggregator.go:161-176):
skip unhealthy clients, skip clients whose `ListPods` fails, keep the first
client attaining the running minimum (strict `<`). -/
def leastPodsLoop (api : String → NodeAPI) :
    List NodeClient → Nat × Option NodeClient → (Nat × Option NodeClient) × List NodeClient
  | [], acc => (acc, [])
  | c :: rest, acc =>
    if !c.healthy then
      let r := leastPodsLoop api rest acc
      (r.1, c :: r.2)
    else
      match (api c.name).listPods with
      | none =>
        let r := leastPodsLoop api rest acc
        (r.1, c :: r.2)
      | some list =>
        let acc2 := if list.length < acc.1 then (list.length, some c) else acc
        let r := leastPodsLoop api rest acc2
        (r.1, c :: r.2)

/-- `Aggregator.CreatePod` (aggregator.go:145-183): route by `Spec.NodeName`
when set (`NodeNotFound` if unknown), otherwise least-pods scheduling over
healthy clients, `NoHealthyNodes` when no target was selected. -/
def Aggregator.createPod (a : Aggregator) (api : String → NodeAPI) (pod : Pod) :
    Except AggError Pod × Aggregator :=
  if pod.nodeName ≠ "" then
    match a.clients.find? (fun c => c.name == pod.nodeName) with
    | some c => (c.createPod api pod, a)
    | none => (.error (.nodeNotFound pod.nodeName), a)
  else
    let r := leastPodsLoop api a.clients (intMax, none)
    match r.1.2 with
    | some target => (target.createPod api pod, { clients := r.2 })
    | none => (.error .noHealthyNodes, { clients := r.2 })

/-- `Aggregator.DeletePod` (aggregator.go:186-200): resolve the owner via
the `GetPod` scan, look the owner up in the registry, delegate. -/
def Aggregator.deletePod (a : Aggregator) (api : String → NodeAPI) (ns name : String) :
    Option AggError × Aggregator :=
  let g := a.getPod api ns name
  match g.1 with
  | .error e => (some e, g.2)
  | .ok (_, nodeName) =>
    match g.2.clients.find? (fun c => c.name == nodeName) with
    | none => (some (.nodeNotFound nodeName), g.2)
    | some c => (c.deletePod api ns name, g.2)

/-- `Aggregator.GetPodLog` (aggregator.go:203-217): same owner resolution as
`DeletePod`, then proxy the log stream. -/
def Aggregator.getPodLog (a : Aggregator) (api : String → NodeAPI) (ns name : String) :
    Except AggError String × Aggregator :=
  let g := a.getPod api ns name
  match g.1 with
  | .error e => (.error e, g.2)
  | .ok (_, nodeName) =>
    match g.2.clients.find? (fun c => c.name == nodeName) with
    | none => (.error (.nodeNotFound nodeName), g.2)
    | some c => (c.getPodLog api ns name, g.2)

/-- The per-client body of `GetClusterSummary` (aggregator.go:232-251):
count healthy flags, add each successful `ListPods` response's length and
running-pod count, record a per-node row (zero pods when the call failed). -/
def summaryLoop (api : String → NodeAPI) :
    List NodeClient → ClusterSummary → ClusterSummary × List NodeClient
  | [], s => (s, [])
  | c :: rest, s =>
    let base : NodeSummary :=
      { name := c.name, healthy := c.healthy, podCount := 0, lastPing := c.lastPing }
    let s1 := if c.healthy then { s with healthyNodes := s.healthyNodes + 1 } else s
    let step : NodeSummary × ClusterSummary :=
      match (api c.name).listPods with
      | none => (base, s1)
      | some list =>
        ({ base with podCount := list.length },
         { s1 with
             podCount := s1.podCount + list.length,
             runningPods := s1.runningPods + list.countP (fun (p : Pod) => p.phase == "Running") })
    let s3 := { step.2 with nodes := step.2.nodes ++ [step.1] }
    let r := summaryLoop api rest s3
    (r.1, c :: r.2)

/-- `Aggregator.GetClusterSummary` (aggregator.go:220-254): recomputed from
scratch on every call. -/
def Aggregator.getClusterSummary (a : Aggregator) (api : String → NodeAPI) :
    ClusterSummary × Aggregator :=
  let r := summaryLoop api a.clients
    { nodeCount := a.clients.length, healthyNodes := 0, podCount := 0,
      runningPods := 0, nodes := [] }
  (r.1, { clients := r.2 })

/-- `Aggregator.GetNode` (aggregator.go:290-298). -/
def Aggregator.getNode (a : Aggregator) (api : String → NodeAPI) (name : String) :
    Except AggError KNode × Aggregator :=
  match a.clients.find? (fun c => c.name == name) with
  | none => (.error (.nodeNotFound name), a)
  | some c => (c.getNode api, a)

/-- The probe pass of the Health Monitor, `pingAll` (aggregator.go:274-287):
ping every client in turn; this is the only loop that writes client state. -/
def pingAllLoop (api : String → NodeAPI) (now : Nat) : List NodeClient → List NodeClient
  | [] => []
  | c :: rest => (c.ping (api c.name).ping now).2 :: pingAllLoop api now rest

/-- One probe pass of `RunHealthChecker` (aggregator.go:256-287). -/
def Aggregator.pingAll (a : Aggregator) (api : String → NodeAPI) (now : Nat) : Aggregator :=
  { clients := pingAllLoop api now a.clients }

/-- A client's live pod count as `CreatePod`'s scheduling loop and
`GetClusterSummary` observe it: the length of a fresh `ListPods` response,
zero when the call fails. -/
def countOf (api : String → NodeAPI) (c : NodeClient) : Nat :=
  (((api c.name).listPods).getD []).length

/-- A client's running-pod count as `GetClusterSummary` observes it. -/
def runningOf (api : String → NodeAPI) (c : NodeClient) : Nat :=
  (((api c.name).listPods).getD []).countP (fun (p : Pod) => p.phase == "Running")

/-- Eligibility for least-pods scheduling (aggregator.go:163-170): cached
health flag true and a successful `ListPods` poll. -/
def elig (api : String → NodeAPI) (c : NodeClient) : Bool :=
  c.healthy && ((api c.name).listPods).isSome

/-! ## Concrete test fixtures

A two-node cluster and a handful of worlds, used to evaluate the theorems
on closed inputs. -/

/-- An unreachable node: every call fails. -/
def apiNone : NodeAPI :=
  { listPods := none, getPod := fun _ _ => none, getNode := none,
    createPod := fun _ => none, deletePod := fun _ _ => none,
    getPodLog := fun _ _ => none, ping := .transportError }

def cA : NodeClient := NewNodeClient "nodeA" "http://a:8082"

def cB : NodeClient := NewNodeClient "nodeB" "http://b:8082"

/-- `cA` after a failed probe. -/
def cABad : NodeClient := { cA with healthy := false }

/-- `cB` after a failed probe. -/
def cBBad : NodeClient := { cB with healthy := false }

def aggAB : Aggregator := { clients := [cA, cB] }

def aggBad : Aggregator := { clients := [cABad, cBBad] }

/-- Mixed health: `nodeB` is registered but currently unhealthy. -/
def aggMixed : Aggregator := { clients := [cA, cBBad] }

def podW : Pod :=
  { ns := "default", name := "web", nodeName := "", phase := "Running", anns := [] }

def podD : Pod :=
  { ns := "default", name := "db", nodeName := "", phase := "Pending", anns := [] }

/-- A pod spec with no placement target. -/
def podFree : Pod :=
  { ns := "default", name := "new", nodeName := "", phase := "", anns := [] }

/-- A pod spec explicitly targeting `nodeB`. -/
def podToB : Pod := { podFree with nodeName := "nodeB" }

/-- A pod spec targeting a node missing from the registry. -/
def podToGhost : Pod := { podFree with nodeName := "ghost" }

/-- Scheduling world: `nodeA` reports five pods, `nodeB` two; both accept
creates by echoing the spec. -/
def wSched : String → NodeAPI := fun n =>
  if n = "nodeA" then
    { apiNone with listPods := some (List.replicate 5 podW), createPod := fun p => some p }
  else if n = "nodeB" then
    { apiNone with listPods := some [podW, podD], createPod := fun p => some p }
  else apiNone

/-- Lookup world: only `nodeB` holds `default/web`; it also accepts deletes
and serves logs. -/
def wGet : String → NodeAPI := fun n =>
  if n = "nodeB" then
    { apiNone with
        getPod := fun ns name => if ns = "default" ∧ name = "web" then some podW else none,
        deletePod := fun _ _ => some (),
        getPodLog := fun _ _ => some "log line" }
  else apiNone

/-- Every node unreachable. -/
def wDead : String → NodeAPI := fun _ => apiNone

/-! ## State-preservation facts about the per-operation loops -/

theorem listPodsLoop_snd (api : String → NodeAPI) (l : List NodeClient) :
    (listPodsLoop api l).2 = l := by
  induction l with
  | nil => rfl
  | cons c rest ih => simp [listPodsLoop, ih]

theorem listNodesLoop_snd (api : String → NodeAPI) (l : List NodeClient) :
    (listNodesLoop api l).2 = l := by
  induction l with
  | nil => rfl
  | cons c rest ih => simp [listNodesLoop, ih]

theorem getPodLoop_snd (api : String → NodeAPI) (ns name : String) (l : List NodeClient) :
    (getPodLoop api ns name l).2 = l := by
  induction l with
  | nil => rfl
  | cons c rest ih =>
    simp only [getPodLoop]
    cases h : (api c.name).getPod ns name <;> simp [ih]

theorem leastPodsLoop_snd (api : String → NodeAPI) (l : List NodeClient)
    (acc : Nat × Option NodeClient) : (leastPodsLoop api l acc).2 = l := by
  induction l generalizing acc with
  | nil => rfl
  | cons c rest ih =>
    simp only [leastPodsLoop]
    by_cases hc : c.healthy
    · cases h : (api c.name).listPods <;> simp [hc, ih]
    · simp [hc, ih]

theorem summaryLoop_snd (api : String → NodeAPI) (l : List NodeClient)
    (s : ClusterSummary) : (summaryLoop api l s).2 = l := by
  induction l generalizing s with
  | nil => rfl
  | cons c rest ih =>
    simp only [summaryLoop]
    cases h : (api c.name).listPods <;> simp [ih]

/-! ## Characterizations of the fan-out merges -/

theorem listPodsLoop_fst (api : String → NodeAPI) (l : List NodeClient) :
    (listPodsLoop api l).1 =
      ((l.filter (fun c => ((api c.name).listPods).isSome)).map
        (fun c => (((api c.name).listPods).getD []).map (fun p => withNodeAnn p c.name))).flatten := by
  induction l with
  | nil => rfl
  | cons c rest ih =>
    simp only [listPodsLoop, List.filter_cons]
    cases h : (api c.name).listPods <;> simp [h, ih]

theorem listNodesLoop_fst (api : String → NodeAPI) (l : List NodeClient) :
    (listNodesLoop api l).1 = l.filterMap (fun c => (api c.name).getNode) := by
  induction l with
  | nil => rfl
  | cons c rest ih =>
    simp only [listNodesLoop, List.filterMap_cons]
    cases h : (api c.name).getNode <;> simp [h, ih]

theorem getAnn_withNodeAnn (p : Pod) (node : String) :
    getAnn (withNodeAnn p node).anns "mkube.io/node" = some node := by
  simp [getAnn, withNodeAnn, setAnn, List.find?]

/-! ## The sequential GetPod scan -/

theorem getPodLoop_fst_none (api : String → NodeAPI) (ns name : String)
    (l : List NodeClient) (h : ∀ c ∈ l, (api c.name).getPod ns name = none) :
    (getPodLoop api ns name l).1 = none := by
  induction l with
  | nil => rfl
  | cons c rest ih =>
    have hc := h c (by simp)
    simp only [getPodLoop, hc]
    exact ih (fun d hd => h d (by simp [hd]))

theorem getPodLoop_fst_first (api : String → NodeAPI) (ns name : String)
    (pre : List NodeClient) (c : NodeClient) (post : List NodeClient) (p : Pod)
    (hpre : ∀ d ∈ pre, (api d.name).getPod ns name = none)
    (hc : (api c.name).getPod ns name = some p) :
    (getPodLoop api ns name (pre ++ c :: post)).1 =
      some (withNodeAnn p c.name, c.name) := by
  induction pre with
  | nil => simp [getPodLoop, hc]
  | cons d rest ih =>
    have hd := hpre d (by simp)
    simp only [List.cons_append, getPodLoop, hd]
    exact ih (fun e he => hpre e (by simp [he]))

theorem getPodLoop_owner_mem (api : String → NodeAPI) (ns name : String)
    (l : List NodeClient) (p : Pod) (nn : String)
    (h : (getPodLoop api ns name l).1 = some (p, nn)) : ∃ c ∈ l, c.name = nn := by
  induction l with
  | nil => simp [getPodLoop] at h
  | cons c rest ih =>
    cases hg : (api c.name).getPod ns name with
    | some pod =>
      simp [getPodLoop, hg] at h
      exact ⟨c, by simp, h.2⟩
    | none =>
      simp only [getPodLoop, hg] at h
      obtain ⟨c', hc', hname⟩ := ih h
      exact ⟨c', by simp [hc'], hname⟩

theorem Aggregator.getPod_snd (a : Aggregator) (api : String → NodeAPI)
    (ns name : String) : (a.getPod api ns name).2 = a := by
  simp only [Aggregator.getPod]
  cases h : (getPodLoop api ns name a.clients).1 <;> simp [h, getPodLoop_snd]

theorem Aggregator.getPod_fst_of_none (a : Aggregator) (api : String → NodeAPI)
    (ns name : String) (h : (getPodLoop api ns name a.clients).1 = none) :
    (a.getPod api ns name).1 = .error (.notFound ns name) := by
  simp [Aggregator.getPod, h]

theorem Aggregator.getPod_fst_of_some (a : Aggregator) (api : String → NodeAPI)
    (ns name : String) (pr : Pod × String)
    (h : (getPodLoop api ns name a.clients).1 = some pr) :
    (a.getPod api ns name).1 = .ok pr := by
  simp [Aggregator.getPod, h]

theorem Aggregator.getPod_fst_ok_loop (a : Aggregator) (api : String → NodeAPI)
    (ns name : String) (pr : Pod × String)
    (h : (a.getPod api ns name).1 = .ok pr) :
    (getPodLoop api ns name a.clients).1 = some pr := by
  revert h
  simp only [Aggregator.getPod]
  cases hg : (getPodLoop api ns name a.clients).1 <;> simp

theorem Aggregator.getPod_fst_error_shape (a : Aggregator) (api : String → NodeAPI)
    (ns name : String) (e : AggError)
    (h : (a.getPod api ns name).1 = .error e) : e = .notFound ns name := by
  revert h
  simp only [Aggregator.getPod]
  cases hg : (getPodLoop api ns name a.clients).1 <;> simp
  intro h
  exact h.symm

theorem Aggregator.getPod_ok_find (a : Aggregator) (api : String → NodeAPI)
    (ns name : String) (p : Pod) (nn : String)
    (h : (a.getPod api ns name).1 = .ok (p, nn)) :
    ∃ c, a.clients.find? (fun d => d.name == nn) = some c ∧ c.name = nn := by
  obtain ⟨c, hc, hname⟩ :=
    getPodLoop_owner_mem api ns name a.clients p nn (a.getPod_fst_ok_loop api ns name _ h)
  have hsome : (a.clients.find? (fun d => d.name == nn)).isSome :=
    List.find?_isSome.mpr ⟨c, hc, by simp [hname]⟩
  obtain ⟨c', hc'⟩ := Option.isSome_iff_exists.mp hsome
  refine ⟨c', hc', ?_⟩
  have := List.find?_some hc'
  simpa using this

/-! ## Claims -/

/-- C1: for every client set and world, a fan-out list call (`ListAllPods` /
`ListAllNodes`) merges exactly the union of the items of the clients whose
call succeeded, every pod carries the `mkube.io/node` annotation naming the
client that produced it, and the call returns a nil error regardless of the
failing clients. -/
theorem listAll_fanout_union (api : String → NodeAPI) (a : Aggregator) :
    a.listAllPods api =
      ((((a.clients.filter (fun c => ((api c.name).listPods).isSome)).map
          (fun c => (((api c.name).listPods).getD []).map
            (fun p => withNodeAnn p c.name))).flatten,
        none), a)
  ∧ a.listAllNodes api =
      ((a.clients.filterMap (fun c => (api c.name).getNode), none), a)
  ∧ ∀ (p : Pod) (node : String),
      getAnn (withNodeAnn p node).anns "mkube.io/node" = some node := by
  refine ⟨?_, ?_, fun p node => getAnn_withNodeAnn p node⟩
  · simp only [Aggregator.listAllPods, listPodsLoop_fst, listPodsLoop_snd]
  · simp only [Aggregator.listAllNodes, listNodesLoop_fst, listNodesLoop_snd]

/-- C3: `GetPod` scans the clients sequentially in registry order: if every
node misses, it fails with the NotFound error; the first node that has the
pod determines the result, which is the pod annotated with, and paired
with, that owning node's name. -/
theorem getPod_sequential_scan (api : String → NodeAPI) (a : Aggregator)
    (ns name : String) :
    ((∀ c ∈ a.clients, (api c.name).getPod ns name = none) →
        (a.getPod api ns name).1 = .error (.notFound ns name))
  ∧ ∀ (pre : List NodeClient) (c : NodeClient) (post : List NodeClient) (p : Pod),
      a.clients = pre ++ c :: post →
      (∀ d ∈ pre, (api d.name).getPod ns name = none) →
      (api c.name).getPod ns name = some p →
      (a.getPod api ns name).1 = .ok (withNodeAnn p c.name, c.name) := by
  constructor
  · intro h
    exact a.getPod_fst_of_none api ns name (getPodLoop_fst_none api ns name a.clients h)
  · intro pre c post p hsplit hpre hc
    apply a.getPod_fst_of_some
    rw [hsplit]
    exact getPodLoop_fst_first api ns name pre c post p hpre hc

/-- C3, evaluated: in the two-node fixture only `nodeB` holds `default/web`,
so the scan returns it tagged with owner `nodeB`; in a world where every
node misses, the scan reports NotFound. -/
theorem getPod_sequential_scan_witness :
    (aggAB.getPod wGet "default" "web").1 = .ok (withNodeAnn podW "nodeB", "nodeB")
  ∧ (aggAB.getPod wDead "default" "web").1 = .error (.notFound "default" "web") := by
  constructor
  · exact (getPod_sequential_scan wGet aggAB "default" "web").2 [cA] cB [] podW rfl
      (by decide) (by decide)
  · exact (getPod_sequential_scan wDead aggAB "default" "web").1 (by decide)

/-! ## The least-pods scheduling loop -/

theorem leastPodsLoop_fst_of_ge (api : String → NodeAPI) (l : List NodeClient)
    (acc : Nat × Option NodeClient)
    (h : ∀ c ∈ l, elig api c = true → acc.1 ≤ countOf api c) :
    (leastPodsLoop api l acc).1 = acc := by
  induction l generalizing acc with
  | nil => rfl
  | cons c rest ih =>
    simp only [leastPodsLoop]
    by_cases hc : c.healthy = true
    · cases hl : (api c.name).listPods with
      | none =>
        simp only [hc, Bool.not_true, hl]
        simpa using ih acc (fun d hd he => h d (by simp [hd]) he)
      | some list =>
        have hcount : acc.1 ≤ list.length := by
          simpa [countOf, hl] using h c (by simp) (by simp [elig, hc, hl])
        have hnlt : ¬ list.length < acc.1 := not_lt.mpr hcount
        simp only [hc, Bool.not_true, hl, if_neg hnlt]
        simpa using ih acc (fun d hd he => h d (by simp [hd]) he)
    · have hc' : c.healthy = false := by simpa using hc
      simp only [hc', Bool.not_false]
      simpa using ih acc (fun d hd he => h d (by simp [hd]) he)

theorem leastPodsLoop_fst_lt (api : String → NodeAPI) (l : List NodeClient)
    (acc : Nat × Option NodeClient) (n : Nat) (h0 : n < acc.1)
    (h : ∀ c ∈ l, elig api c = true → n < countOf api c) :
    n < (leastPodsLoop api l acc).1.1 := by
  induction l generalizing acc with
  | nil => exact h0
  | cons c rest ih =>
    simp only [leastPodsLoop]
    by_cases hc : c.healthy = true
    · cases hl : (api c.name).listPods with
      | none =>
        simp only [hc, Bool.not_true, hl]
        simpa using ih acc h0 (fun d hd he => h d (by simp [hd]) he)
      | some list =>
        simp only [hc, Bool.not_true, hl]
        by_cases hlt : list.length < acc.1
        · simp only [if_pos hlt]
          have hn : n < list.length := by
            simpa [countOf, hl] using h c (by simp) (by simp [elig, hc, hl])
          simpa using ih (list.length, some c) hn (fun d hd he => h d (by simp [hd]) he)
        · simp only [if_neg hlt]
          simpa using ih acc h0 (fun d hd he => h d (by simp [hd]) he)
    · have hc' : c.healthy = false := by simpa using hc
      simp only [hc', Bool.not_false]
      simpa using ih acc h0 (fun d hd he => h d (by simp [hd]) he)

theorem leastPodsLoop_fst_append (api : String → NodeAPI) (l1 l2 : List NodeClient)
    (acc : Nat × Option NodeClient) :
    (leastPodsLoop api (l1 ++ l2) acc).1 =
      (leastPodsLoop api l2 ((leastPodsLoop api l1 acc).1)).1 := by
  induction l1 generalizing acc with
  | nil => rfl
  | cons c rest ih =>
    simp only [List.cons_append, leastPodsLoop]
    by_cases hc : c.healthy = true
    · cases hl : (api c.name).listPods with
      | none =>
        simp only [hc, Bool.not_true, hl]
        simpa using ih acc
      | some list =>
        simp only [hc, Bool.not_true, hl]
        by_cases hlt : list.length < acc.1
        · simp only [if_pos hlt]
          simpa using ih (list.length, some c)
        · simp only [if_neg hlt]
          simpa using ih acc
    · have hc' : c.healthy = false := by simpa using hc
      simp only [hc', Bool.not_false]
      simpa using ih acc

/-- C2: with no explicit target, `CreatePod` selects, among clients whose
cached health flag is true, the first (in registry order) whose live
`ListPods` count is strictly smallest, and delegates the create to it; with
every client's health flag false it fails with the NoHealthyNodes error. -/
theorem createPod_least_pods (api : String → NodeAPI) (a : Aggregator) (pod : Pod)
    (hpod : pod.nodeName = "") :
    ((∀ c ∈ a.clients, c.healthy = false) →
        (a.createPod api pod).1 = .error .noHealthyNodes)
  ∧ ∀ (pre : List NodeClient) (c : NodeClient) (post : List NodeClient),
      a.clients = pre ++ c :: post →
      elig api c = true →
      countOf api c < intMax →
      (∀ d ∈ pre, elig api d = true → countOf api c < countOf api d) →
      (∀ d ∈ post, elig api d = true → countOf api c ≤ countOf api d) →
      (a.createPod api pod).1 = c.createPod api pod := by
  constructor
  · intro h
    have hsel : (leastPodsLoop api a.clients (intMax, none)).1 = (intMax, none) :=
      leastPodsLoop_fst_of_ge api a.clients (intMax, none)
        (fun c hc he => absurd he (by simp [elig, h c hc]))
    simp [Aggregator.createPod, hpod, hsel]
  · intro pre c post hsplit helig hmax hpre hpost
    have hh : c.healthy = true := by
      simp [elig] at helig; exact helig.1
    obtain ⟨lc, hl⟩ : ∃ lc, (api c.name).listPods = some lc := by
      simp [elig] at helig
      exact Option.isSome_iff_exists.mp helig.2
    have hcount : countOf api c = lc.length := by simp [countOf, hl]
    have hsel : (leastPodsLoop api a.clients (intMax, none)).1 = (lc.length, some c) := by
      rw [hsplit, leastPodsLoop_fst_append]
      have hgt : lc.length < ((leastPodsLoop api pre (intMax, none)).1).1 := by
        apply leastPodsLoop_fst_lt api pre (intMax, none) lc.length
        · have h1 := hmax; rw [hcount] at h1; simpa using h1
        · intro d hd he
          rw [← hcount]; exact hpre d hd he
      have hstep : (leastPodsLoop api (c :: post) ((leastPodsLoop api pre (intMax, none)).1)).1
          = (leastPodsLoop api post (lc.length, some c)).1 := by
        simp only [leastPodsLoop, hh, Bool.not_true, hl, if_pos hgt]
        simp
      rw [hstep]
      apply leastPodsLoop_fst_of_ge
      intro d hd he
      rw [← hcount]
      exact hpost d hd he
    simp [Aggregator.createPod, hpod, hsel]

/-- C2, evaluated: nodes reporting five and two pods — the two-pod node
receives the new pod; a cluster whose clients are all marked unhealthy
reports NoHealthyNodes. -/
theorem createPod_least_pods_witness :
    (aggAB.createPod wSched podFree).1 = .ok podFree
  ∧ (aggBad.createPod wSched podFree).1 = .error .noHealthyNodes := by
  constructor
  · have h := (createPod_least_pods wSched aggAB podFree rfl).2 [cA] cB []
      rfl (by decide) (by decide) (by decide) (by decide)
    rw [h]; rfl
  · exact (createPod_least_pods wSched aggBad podFree rfl).1 (by decide)

/-- C5: with an explicit `Spec.NodeName`, `CreatePod` routes only to that
client — the result depends only on the target's remote behaviour, never on
any other node's pod counts — and fails with the NodeNotFound error when
the name is not in the registry. -/
theorem createPod_explicit_target (api apiB : String → NodeAPI) (a : Aggregator)
    (pod : Pod) (hpod : pod.nodeName ≠ "") :
    (∀ c, a.clients.find? (fun d => d.name == pod.nodeName) = some c →
        (a.createPod api pod).1 = c.createPod api pod
        ∧ (api pod.nodeName = apiB pod.nodeName →
            (a.createPod api pod).1 = (a.createPod apiB pod).1))
  ∧ (a.clients.find? (fun d => d.name == pod.nodeName) = none →
      (a.createPod api pod).1 = .error (.nodeNotFound pod.nodeName)) := by
  have hname : ∀ c, a.clients.find? (fun d => d.name == pod.nodeName) = some c →
      c.name = pod.nodeName := by
    intro c hc
    have := List.find?_some hc
    simpa using this
  constructor
  · intro c hc
    have heq : c.name = pod.nodeName := hname c hc
    constructor
    · simp [Aggregator.createPod, hpod, hc]
    · intro hsame
      have h1 : (a.createPod api pod).1 = c.createPod api pod := by
        simp [Aggregator.createPod, hpod, hc]
      have h2 : (a.createPod apiB pod).1 = c.createPod apiB pod := by
        simp [Aggregator.createPod, hpod, hc]
      rw [h1, h2]
      simp only [NodeClient.createPod, heq, hsame]
  · intro hc
    simp [Aggregator.createPod, hpod, hc]

/-- C5, evaluated: a pod targeting `nodeB` lands on `nodeB` (whatever other
nodes report), and a pod targeting an unregistered node fails with
NodeNotFound. -/
theorem createPod_explicit_target_witness :
    (aggAB.createPod wSched podToB).1 = .ok podToB
  ∧ (aggAB.createPod wSched podToGhost).1 = .error (.nodeNotFound "ghost") := by
  constructor
  · have h := ((createPod_explicit_target wSched wSched aggAB podToB (by decide)).1
      cB (by decide)).1
    rw [h]; rfl
  · exact (createPod_explicit_target wSched wSched aggAB podToGhost (by decide)).2 (by decide)

/-- C9: the explicit-target path never consults the health flag — a create
targeting a registered node is delegated to that node's client even when
its cached health flag is false. -/
theorem createPod_explicit_ignores_health (api : String → NodeAPI) (a : Aggregator)
    (pod : Pod) (c : NodeClient) (hpod : pod.nodeName ≠ "")
    (hfind : a.clients.find? (fun d => d.name == pod.nodeName) = some c)
    (hbad : c.healthy = false) :
    (a.createPod api pod).1 = c.createPod api pod := by
  simp [Aggregator.createPod, hpod, hfind]

/-- C9, evaluated: `nodeB` is registered but unhealthy, and a create
targeting it still lands there. -/
theorem createPod_explicit_ignores_health_witness :
    cBBad.healthy = false ∧ (aggMixed.createPod wSched podToB).1 = .ok podToB := by
  refine ⟨rfl, ?_⟩
  have h := createPod_explicit_ignores_health wSched aggMixed podToB cBBad
    (by decide) (by decide) rfl
  rw [h]; rfl

/-- C4: a probe sets `healthy` and stamps `lastPing` with the current time
on a 200 response and returns no error; on any failure it clears `healthy`,
leaves `lastPing` unchanged, and returns the error; a freshly constructed
client starts healthy with a zero `lastPing`. -/
theorem ping_health_transitions (c : NodeClient) (o : PingOutcome) (now : Nat)
    (n addr : String) :
    NewNodeClient n addr = { name := n, address := addr, healthy := true, lastPing := 0 }
  ∧ c.ping (.status 200) now = (none, { c with healthy := true, lastPing := now })
  ∧ (o ≠ .status 200 → c.ping o now = (some .comm, { c with healthy := false })) := by
  refine ⟨rfl, rfl, ?_⟩
  intro h
  cases o with
  | reqError => rfl
  | transportError => rfl
  | status code =>
    have hcode : code ≠ 200 := fun hc => h (by rw [hc])
    simp [NodeClient.ping, hcode]

/-- C4, evaluated: a 500 status marks the client unhealthy without touching
`lastPing`; a 200 status marks it healthy and stamps the time; a fresh
client is healthy at time zero. -/
theorem ping_health_transitions_witness :
    cA.ping (.status 500) 9 = (some .comm, { cA with healthy := false })
  ∧ cA.ping (.status 200) 9 = (none, { cA with healthy := true, lastPing := 9 })
  ∧ NewNodeClient "n" "a" = { name := "n", address := "a", healthy := true, lastPing := 0 } := by
  have h := ping_health_transitions cA (.status 500) 9 "n" "a"
  exact ⟨h.2.2 (by decide), h.2.1, h.1⟩

/-! ## The cluster summary fold -/

theorem summaryLoop_fst (api : String → NodeAPI) (l : List NodeClient)
    (s : ClusterSummary) :
    (summaryLoop api l s).1 =
      { nodeCount := s.nodeCount,
        healthyNodes := s.healthyNodes + (l.filter (fun c => c.healthy)).length,
        podCount := s.podCount + (l.map (fun c => countOf api c)).sum,
        runningPods := s.runningPods + (l.map (fun c => runningOf api c)).sum,
        nodes := s.nodes ++ l.map (fun c =>
          { name := c.name, healthy := c.healthy, podCount := countOf api c,
            lastPing := c.lastPing }) } := by
  induction l generalizing s with
  | nil => simp [summaryLoop]
  | cons c rest ih =>
    simp only [summaryLoop]
    cases hl : (api c.name).listPods with
    | none =>
      by_cases hc : c.healthy = true
      · rw [ih]
        simp [hc, countOf, runningOf, hl, List.filter_cons, ClusterSummary.mk.injEq]
        omega
      · have hc' : c.healthy = false := by simpa using hc
        rw [ih]
        simp [hc', countOf, runningOf, hl, List.filter_cons, ClusterSummary.mk.injEq]
    | some list =>
      by_cases hc : c.healthy = true
      · rw [ih]
        simp [hc, countOf, runningOf, hl, List.filter_cons, ClusterSummary.mk.injEq]
        refine ⟨by omega, by omega, by omega⟩
      · have hc' : c.healthy = false := by simpa using hc
        rw [ih]
        simp [hc', countOf, runningOf, hl, List.filter_cons, ClusterSummary.mk.injEq]
        refine ⟨by omega, by omega⟩

/-- C6: `GetClusterSummary` reports the registered-client count, the number
of clients whose cached health flag is true, and pod totals summed from a
fresh `ListPods` per client — a failing client contributing zero to the
totals and a zero per-node row — recomputed from the current state on every
call. -/
theorem clusterSummary_counts (api : String → NodeAPI) (a : Aggregator) :
    a.getClusterSummary api =
      ({ nodeCount := a.clients.length,
         healthyNodes := (a.clients.filter (fun c => c.healthy)).length,
         podCount := (a.clients.map (fun c => countOf api c)).sum,
         runningPods := (a.clients.map (fun c => runningOf api c)).sum,
         nodes := a.clients.map (fun c =>
           { name := c.name, healthy := c.healthy, podCount := countOf api c,
             lastPing := c.lastPing }) }, a) := by
  simp [Aggregator.getClusterSummary, summaryLoop_fst, summaryLoop_snd]

/-! ## Owner resolution in DeletePod and GetPodLog -/

theorem NodeClient.deletePod_no_nodeNotFound (c : NodeClient) (api : String → NodeAPI)
    (ns name m : String) : c.deletePod api ns name ≠ some (.nodeNotFound m) := by
  unfold NodeClient.deletePod
  cases (api c.name).deletePod ns name <;> simp

theorem NodeClient.getPodLog_no_nodeNotFound (c : NodeClient) (api : String → NodeAPI)
    (ns name m : String) : c.getPodLog api ns name ≠ .error (.nodeNotFound m) := by
  unfold NodeClient.getPodLog
  cases (api c.name).getPodLog ns name <;> simp

theorem Aggregator.getPod_pair_ok (a : Aggregator) (api : String → NodeAPI)
    (ns name : String) (pr : Pod × String) (h : (a.getPod api ns name).1 = .ok pr) :
    a.getPod api ns name = (.ok pr, a) := by
  have hpair := (Prod.mk.eta (p := a.getPod api ns name)).symm
  rw [h, a.getPod_snd api ns name] at hpair
  exact hpair

theorem Aggregator.getPod_pair_error (a : Aggregator) (api : String → NodeAPI)
    (ns name : String) (e : AggError) (h : (a.getPod api ns name).1 = .error e) :
    a.getPod api ns name = (.error e, a) := by
  have hpair := (Prod.mk.eta (p := a.getPod api ns name)).symm
  rw [h, a.getPod_snd api ns name] at hpair
  exact hpair

/-- C7: `DeletePod` and `GetPodLog` resolve the owner through the same
`GetPod` scan: when `GetPod` returns owner `nn`, both delegate to the
registry's client for `nn`; when `GetPod` fails, both fail with the very
same error. -/
theorem delete_log_same_owner (api : String → NodeAPI) (a : Aggregator)
    (ns name : String) :
    (∀ (p : Pod) (nn : String), (a.getPod api ns name).1 = .ok (p, nn) →
        ∃ c, a.clients.find? (fun d => d.name == nn) = some c ∧ c.name = nn
          ∧ (a.deletePod api ns name).1 = c.deletePod api ns name
          ∧ (a.getPodLog api ns name).1 = c.getPodLog api ns name)
  ∧ ∀ (e : AggError), (a.getPod api ns name).1 = .error e →
      (a.deletePod api ns name).1 = some e
      ∧ (a.getPodLog api ns name).1 = .error e := by
  constructor
  · intro p nn h
    obtain ⟨c, hfind, hname⟩ := a.getPod_ok_find api ns name p nn h
    have hpair := a.getPod_pair_ok api ns name (p, nn) h
    refine ⟨c, hfind, hname, ?_, ?_⟩
    · simp [Aggregator.deletePod, hpair, hfind]
    · simp [Aggregator.getPodLog, hpair, hfind]
  · intro e h
    have hpair := a.getPod_pair_error api ns name e h
    constructor
    · simp [Aggregator.deletePod, hpair]
    · simp [Aggregator.getPodLog, hpair]

/-- C7, evaluated: with `default/web` owned by `nodeB`, both operations
delegate to `nodeB` (delete succeeds, the log streams); with no owner, both
surface the scan's NotFound error. -/
theorem delete_log_same_owner_witness :
    (aggAB.deletePod wGet "default" "web").1 = none
  ∧ (aggAB.getPodLog wGet "default" "web").1 = .ok "log line"
  ∧ (aggAB.deletePod wDead "default" "web").1 = some (.notFound "default" "web")
  ∧ (aggAB.getPodLog wDead "default" "web").1 = .error (.notFound "default" "web") := by
  have h : (aggAB.getPod wGet "default" "web").1 = .ok (withNodeAnn podW "nodeB", "nodeB") := rfl
  obtain ⟨c, hfind, hname, hdel, hlog⟩ :=
    (delete_log_same_owner wGet aggAB "default" "web").1 _ _ h
  have hfindB : aggAB.clients.find? (fun d => d.name == "nodeB") = some cB := by decide
  have hcB : c = cB := by
    rw [hfindB] at hfind
    exact (Option.some.inj hfind).symm
  subst hcB
  have h2 : (aggAB.getPod wDead "default" "web").1 = .error (.notFound "default" "web") := rfl
  obtain ⟨hd2, hl2⟩ := (delete_log_same_owner wDead aggAB "default" "web").2 _ h2
  refine ⟨by rw [hdel]; rfl, by rw [hlog]; rfl, hd2, hl2⟩

/-- C10: the owner name returned by a successful `GetPod` is always a
registry key, so the node-lookup-failure branches of `DeletePod` and
`GetPodLog` are unreachable: neither operation can ever produce the
NodeNotFound error. -/
theorem owner_lookup_never_fails (api : String → NodeAPI) (a : Aggregator)
    (ns name : String) :
    (∀ (p : Pod) (nn : String), (a.getPod api ns name).1 = .ok (p, nn) →
        (a.clients.find? (fun d => d.name == nn)).isSome = true)
  ∧ (∀ m : String, (a.deletePod api ns name).1 ≠ some (.nodeNotFound m))
  ∧ (∀ m : String, (a.getPodLog api ns name).1 ≠ .error (.nodeNotFound m)) := by
  refine ⟨?_, ?_, ?_⟩
  · intro p nn h
    obtain ⟨c, hfind, _⟩ := a.getPod_ok_find api ns name p nn h
    simp [hfind]
  · intro m
    cases hg : (a.getPod api ns name).1 with
    | error e =>
      have hshape := a.getPod_fst_error_shape api ns name e hg
      have hpair := a.getPod_pair_error api ns name e hg
      simp [Aggregator.deletePod, hpair, hshape]
    | ok pr =>
      obtain ⟨p, nn⟩ := pr
      obtain ⟨c, hfind, hname⟩ := a.getPod_ok_find api ns name p nn hg
      have hpair := a.getPod_pair_ok api ns name (p, nn) hg
      simp only [Aggregator.deletePod, hpair, hfind]
      exact c.deletePod_no_nodeNotFound api ns name m
  · intro m
    cases hg : (a.getPod api ns name).1 with
    | error e =>
      have hshape := a.getPod_fst_error_shape api ns name e hg
      have hpair := a.getPod_pair_error api ns name e hg
      simp [Aggregator.getPodLog, hpair, hshape]
    | ok pr =>
      obtain ⟨p, nn⟩ := pr
      obtain ⟨c, hfind, hname⟩ := a.getPod_ok_find api ns name p nn hg
      have hpair := a.getPod_pair_ok api ns name (p, nn) hg
      simp only [Aggregator.getPodLog, hpair, hfind]
      exact c.getPodLog_no_nodeNotFound api ns name m

/-- C10, evaluated: a successful lookup's owner is in the registry, and the
concrete delete and log calls can never report NodeNotFound. -/
theorem owner_lookup_never_fails_witness :
    (aggAB.clients.find? (fun d => d.name == "nodeB")).isSome = true
  ∧ (aggAB.deletePod wGet "default" "web").1 ≠ some (.nodeNotFound "ghost")
  ∧ (aggAB.getPodLog wGet "default" "web").1 ≠ .error (.nodeNotFound "ghost") := by
  have h := owner_lookup_never_fails wGet aggAB "default" "web"
  exact ⟨h.1 (withNodeAnn podW "nodeB") "nodeB" rfl, h.2.1 "ghost", h.2.2 "ghost"⟩

/-- C8: no aggregator operation other than the Health Monitor's probe pass
writes client state — after any of `ListAllPods`, `ListAllNodes`, `GetPod`,
`CreatePod`, `DeletePod`, `GetPodLog`, `GetClusterSummary`, `GetNode` every
client's `healthy` flag and `lastPing` timestamp (indeed the whole client
list) are exactly as before. -/
theorem ops_preserve_health (api : String → NodeAPI) (a : Aggregator)
    (ns name nodeName : String) (pod : Pod) :
    (a.listAllPods api).2 = a
  ∧ (a.listAllNodes api).2 = a
  ∧ (a.getPod api ns name).2 = a
  ∧ (a.createPod api pod).2 = a
  ∧ (a.deletePod api ns name).2 = a
  ∧ (a.getPodLog api ns name).2 = a
  ∧ (a.getClusterSummary api).2 = a
  ∧ (a.getNode api nodeName).2 = a := by
  have hcreate : (a.createPod api pod).2 = a := by
    simp only [Aggregator.createPod]
    by_cases hpod : pod.nodeName ≠ ""
    · cases hf : a.clients.find? (fun c => c.name == pod.nodeName) <;> simp [hpod, hf]
    · cases hsel : (leastPodsLoop api a.clients (intMax, none)).1.2 <;>
        simp [hpod, hsel, leastPodsLoop_snd]
  have hdel : (a.deletePod api ns name).2 = a := by
    simp only [Aggregator.deletePod]
    cases hg : (a.getPod api ns name).1 with
    | error e =>
      have hpair := a.getPod_pair_error api ns name e hg
      simp [hpair]
    | ok pr =>
      obtain ⟨p, nn⟩ := pr
      have hpair := a.getPod_pair_ok api ns name (p, nn) hg
      cases hf : a.clients.find? (fun c => c.name == nn) <;> simp [hpair, hf]
  have hlog : (a.getPodLog api ns name).2 = a := by
    simp only [Aggregator.getPodLog]
    cases hg : (a.getPod api ns name).1 with
    | error e =>
      have hpair := a.getPod_pair_error api ns name e hg
      simp [hpair]
    | ok pr =>
      obtain ⟨p, nn⟩ := pr
      have hpair := a.getPod_pair_ok api ns name (p, nn) hg
      cases hf : a.clients.find? (fun c => c.name == nn) <;> simp [hpair, hf]
  have hnode : (a.getNode api nodeName).2 = a := by
    simp only [Aggregator.getNode]
    cases hf : a.clients.find? (fun c => c.name == nodeName) <;> simp [hf]
  refine ⟨?_, ?_, a.getPod_snd api ns name, hcreate, hdel, hlog, ?_, hnode⟩
  · simp [Aggregator.listAllPods, listPodsLoop_snd]
  · simp [Aggregator.listAllNodes, listNodesLoop_snd]
  · simp [Aggregator.getClusterSummary, summaryLoop_snd]
